import Mathlib

set_option maxRecDepth 4000

/-!
Shallow embedding of `theblitlabs/keystore` (`src/keystore.go`).

The Go package persists a single record (`auth_token`, `private_key`,
`created_at`, all with `omitempty`) as JSON in one file and validates it on
load.  We model:

* the in-memory `Store` struct (exported fields plus its `Config`);
* the on-disk state as a `FileState`: the file may be missing, unreadable
  (an I/O error other than not-exist), corrupt (unparseable), or a
  well-formed JSON object modelled as a `FileRecord` of optional fields —
  a field is `none` exactly when its key is absent from the JSON text;
* `json.MarshalIndent` on the struct as `marshal` (with `omitempty`:
  empty string / zero fields are omitted) and `json.Unmarshal(data, s)` as
  `unmarshalInto` (Go's decoder overwrites a struct field only when its key
  is present; absent keys leave the pre-existing field value in place);
* the external collaborator `crypto.HexToECDSA` from go-ethereum as
  `hexToECDSA`: hex-decode (both letter cases accepted), require exactly
  32 bytes (64 hex digits), and require the scalar `d` to satisfy
  `0 < d < secp256k1N`; the returned key object is the scalar.  Re-encoding
  a key (`crypto.FromECDSA` + `hex.EncodeToString`) pads to 32 bytes and
  produces lowercase hex: `fromECDSAHex`;
* each exported method as a function from a `World` (store + file system)
  to an updated `World` paired with its result, matching Go's pointer
  mutation semantics (the receiver stays mutated even when an error is
  returned).  A `writeFails` flag models `os.WriteFile` failure.
-/

namespace Keystore

/-- `TokenExpiryDuration = 1 * time.Hour`; the code compares against
`int64(TokenExpiryDuration.Seconds()) = 3600`. -/
def tokenExpirySeconds : Int := 3600

/-- The order of the secp256k1 group: `crypto.HexToECDSA` rejects scalars
that are zero or not below this value. -/
def secpN : Nat := 115792089237316195423570985008687907852837564279074904382605163141518161494337

/-- `Config` from `keystore.go`: directory path and file name. -/
structure Config where
  dirPath : String
  fileName : String
deriving DecidableEq, Repr

/-- The in-memory `Store` struct: exported JSON-serialized fields
(`AuthToken`, `PrivateKey`, `CreatedAt`) plus the unexported `config`
(ignored by the JSON codec). -/
structure Store where
  authToken : String
  privateKey : String
  createdAt : Int
  config : Config
deriving DecidableEq, Repr

/-- A well-formed JSON record on disk: each field is `some v` when its key
is present in the JSON text with value `v`, and `none` when the key is
absent. -/
structure FileRecord where
  authToken : Option String
  privateKey : Option String
  createdAt : Option Int
deriving DecidableEq, Repr

/-- State of the keystore file on disk. -/
inductive FileState where
  /-- `os.ReadFile` fails with a not-exist error. -/
  | missing : FileState
  /-- `os.ReadFile` fails with some other I/O error. -/
  | unreadable : FileState
  /-- The file reads but `json.Unmarshal` rejects its content. -/
  | corrupt : FileState
  /-- The file holds a well-formed record. -/
  | record (fr : FileRecord) : FileState
deriving DecidableEq, Repr

/-- The error taxonomy of the package: the five sentinel errors plus the
wrapped infrastructure failures produced with `fmt.Errorf`. -/
inductive KError where
  | emptyToken : KError
  /-- `ErrNoKeystore` wrapped together with the attempted path. -/
  | noKeystore (p : String) : KError
  | tokenExpired : KError
  | invalidToken : KError
  | noPrivateKey : KError
  /-- `fmt.Errorf("invalid private key format: %w", err)`. -/
  | invalidKeyFormat : KError
  | readError : KError
  | parseError : KError
  | writeError : KError
deriving DecidableEq, Repr

/-- A store together with the state of its file: everything an operation
can observe or mutate. -/
structure World where
  store : Store
  fs : FileState
deriving DecidableEq, Repr

/-- `(s *Store) path()`: `filepath.Join(s.config.DirPath, s.config.FileName)`. -/
def Store.path (s : Store) : String :=
  s.config.dirPath ++ "/" ++ s.config.fileName

/-- `json.MarshalIndent(s, ...)` on the `Store` struct: every tag carries
`omitempty`, so an empty-string or zero field is omitted from the output. -/
def marshal (s : Store) : FileRecord :=
  { authToken := if s.authToken = "" then none else some s.authToken
    privateKey := if s.privateKey = "" then none else some s.privateKey
    createdAt := if s.createdAt = 0 then none else some s.createdAt }

/-- `json.Unmarshal(data, s)` into the existing struct: a field is
overwritten when its key is present in the JSON and left at its previous
in-memory value when the key is absent; the unexported `config` is
untouched. -/
def unmarshalInto (s : Store) (fr : FileRecord) : Store :=
  { s with
    authToken := fr.authToken.getD s.authToken
    privateKey := fr.privateKey.getD s.privateKey
    createdAt := fr.createdAt.getD s.createdAt }

/-- `(s *Store) load()`: read the file; a not-exist error becomes
`ErrNoKeystore` wrapped with the path, any other read failure a read
error, unparseable content a parse error; otherwise unmarshal into the
in-memory record. -/
def load (w : World) : World × Option KError :=
  match w.fs with
  | FileState.missing => (w, some (KError.noKeystore w.store.path))
  | FileState.unreadable => (w, some KError.readError)
  | FileState.corrupt => (w, some KError.parseError)
  | FileState.record fr => ({ w with store := unmarshalInto w.store fr }, none)

/-- `(s *Store) save()`: marshal the full record and write it, replacing
the file; `writeFails` models an `os.WriteFile` failure. -/
def save (writeFails : Bool) (w : World) : World × Option KError :=
  if writeFails then (w, some KError.writeError)
  else ({ w with fs := FileState.record (marshal w.store) }, none)

/-- `SaveToken`: reject the empty token before any mutation or I/O;
otherwise set `AuthToken` and `CreatedAt` to the current time and do a full
save. -/
def SaveToken (token : String) (now : Int) (writeFails : Bool) (w : World) :
    World × Option KError :=
  if token = "" then (w, some KError.emptyToken)
  else
    save writeFails
      { w with store := { w.store with authToken := token, createdAt := now } }

/-- `LoadToken`: full load, then reject an empty token, then reject an
expired one (`now - CreatedAt > 3600`, strict), else return the token. -/
def LoadToken (now : Int) (w : World) : World × Except KError String :=
  match load w with
  | (w1, some e) => (w1, Except.error e)
  | (w1, none) =>
    if w1.store.authToken = "" then (w1, Except.error KError.invalidToken)
    else if now - w1.store.createdAt > tokenExpirySeconds then
      (w1, Except.error KError.tokenExpired)
    else (w1, Except.ok w1.store.authToken)

/-- A single hex digit's value; like Go's `encoding/hex`, both lowercase
and uppercase letters are accepted. -/
def hexDigitVal (c : Char) : Option Nat :=
  if '0' ≤ c ∧ c ≤ '9' then some (c.toNat - 48)
  else if 'a' ≤ c ∧ c ≤ 'f' then some (c.toNat - 87)
  else if 'A' ≤ c ∧ c ≤ 'F' then some (c.toNat - 55)
  else none

/-- Whether a character is a hex digit (either case). -/
def isHexDigit (c : Char) : Bool :=
  (hexDigitVal c).isSome

/-- One step of big-endian positional accumulation of hex digits. -/
def decodeStep (a : Nat) (c : Char) : Nat :=
  16 * a + (hexDigitVal c).getD 0

/-- The numeric value of a big-endian string of hex digits. -/
def decodeNat (cs : List Char) : Nat :=
  cs.foldl decodeStep 0

/-- `crypto.HexToECDSA` from go-ethereum: hex-decode the string (must be
all hex digits and exactly 64 of them, i.e. 32 bytes), then require the
scalar to be nonzero and below the secp256k1 group order.  The key object
is modelled by its scalar. -/
def hexToECDSA (s : String) : Option Nat :=
  if s.data.all isHexDigit ∧ s.data.length = 64 then
    if 0 < decodeNat s.data ∧ decodeNat s.data < secpN then
      some (decodeNat s.data)
    else none
  else none

/-- The lowercase hex character for a value below 16. -/
def hexChar (n : Nat) : Char :=
  if n < 10 then Char.ofNat (48 + n) else Char.ofNat (87 + n)

/-- Little-endian list of `k` lowercase hex digits of `d` (least
significant first). -/
def toHexRevAux : Nat → Nat → List Char
  | 0, _ => []
  | Nat.succ k, d => hexChar (d % 16) :: toHexRevAux k (d / 16)

/-- Re-encoding of a key object: `crypto.FromECDSA` pads the scalar to 32
bytes and `hex.EncodeToString` renders them as 64 lowercase hex digits. -/
def fromECDSAHex (d : Nat) : String :=
  String.mk (toHexRevAux 64 d).reverse

/-- `SavePrivateKey`: validate via the collaborator before touching any
state; on success set `PrivateKey` and do a full save. -/
def SavePrivateKey (privateKeyHex : String) (writeFails : Bool) (w : World) :
    World × Option KError :=
  match hexToECDSA privateKeyHex with
  | none => (w, some KError.invalidKeyFormat)
  | some _ =>
    save writeFails { w with store := { w.store with privateKey := privateKeyHex } }

/-- `LoadPrivateKey`: full load, reject an empty `PrivateKey`, else decode
it via the collaborator (a decode failure at this stage surfaces as the
collaborator's error). -/
def LoadPrivateKey (w : World) : World × Except KError Nat :=
  match load w with
  | (w1, some e) => (w1, Except.error e)
  | (w1, none) =>
    if w1.store.privateKey = "" then (w1, Except.error KError.noPrivateKey)
    else
      match hexToECDSA w1.store.privateKey with
      | some d => (w1, Except.ok d)
      | none => (w1, Except.error KError.invalidKeyFormat)

/-- `GetPrivateKeyHex`: same load-and-validation path as `LoadPrivateKey`
but returning the raw hex without decoding. -/
def GetPrivateKeyHex (w : World) : World × Except KError String :=
  match load w with
  | (w1, some e) => (w1, Except.error e)
  | (w1, none) =>
    if w1.store.privateKey = "" then (w1, Except.error KError.noPrivateKey)
    else (w1, Except.ok w1.store.privateKey)

/-! ## Claims -/

/-- A sample configuration used by concrete witnesses. -/
def exCfg : Config := ⟨"/home/user/.parity", "keystore.json"⟩

/-- In-memory store state for the C1 counterexample: a previously saved
key sits in memory. -/
def c1Store : Store := ⟨"stale", "oldkey", 7, exCfg⟩

/-- File content for the C1 counterexample: the `private_key` JSON key is
absent from the file. -/
def c1File : FileRecord := ⟨some "t", none, some 5⟩

/-- C1 counterexample: with `private_key` absent from the file, a
successful full load leaves the in-memory `PrivateKey` at its pre-load
value `"oldkey"` instead of resetting it to the empty string — Go's
`json.Unmarshal` merges into the existing struct. -/
theorem spec_C1_counterexample :
    (load ⟨c1Store, FileState.record c1File⟩).2 = none ∧
    (load ⟨c1Store, FileState.record c1File⟩).1.store.privateKey = "oldkey" ∧
    (load ⟨c1Store, FileState.record c1File⟩).1.store.privateKey ≠ "" := by
  decide

/-- C1 (amended): when a full load succeeds, each field of the in-memory
record whose key is present in the file is overwritten with the
deserialized value, while each field whose key is absent from the file
retains its pre-load in-memory value (merge semantics, not a full
overwrite). -/
theorem spec_C1 (s : Store) (fr : FileRecord) :
    load ⟨s, FileState.record fr⟩ = (⟨unmarshalInto s fr, FileState.record fr⟩, none) ∧
    (unmarshalInto s fr).authToken = fr.authToken.getD s.authToken ∧
    (unmarshalInto s fr).privateKey = fr.privateKey.getD s.privateKey ∧
    (unmarshalInto s fr).createdAt = fr.createdAt.getD s.createdAt ∧
    (unmarshalInto s fr).config = s.config := by
  refine ⟨rfl, rfl, rfl, rfl, rfl⟩

/-- C2: on a loaded record with a non-empty token, `LoadToken` reports
expiry exactly when `now - createdAt > 3600` (strictly greater); at an age
of exactly 3600 seconds it succeeds, at 3601 it fails expired. -/
theorem spec_C2 (s : Store) (fr : FileRecord) (now : Int)
    (ht : (unmarshalInto s fr).authToken ≠ "") :
    ((LoadToken now ⟨s, FileState.record fr⟩).2 = Except.error KError.tokenExpired ↔
        now - (unmarshalInto s fr).createdAt > 3600) ∧
    (now - (unmarshalInto s fr).createdAt = 3601 →
        (LoadToken now ⟨s, FileState.record fr⟩).2 = Except.error KError.tokenExpired) ∧
    (now - (unmarshalInto s fr).createdAt = 3600 →
        (LoadToken now ⟨s, FileState.record fr⟩).2 =
          Except.ok (unmarshalInto s fr).authToken) := by
  simp only [LoadToken, load, tokenExpirySeconds]
  rw [if_neg ht]
  refine ⟨?_, ?_, ?_⟩
  · split_ifs with hc
    · simpa using hc
    · simpa using hc
  · intro h
    rw [if_pos (by omega)]
  · intro h
    rw [if_neg (by omega)]

/-- C2 witness at a concrete record: token `"tok"`, `createdAt = 1000`,
checked at `now = 4601` (expired) and via the iff at `now = 4600`. -/
theorem spec_C2_witness :
    (LoadToken 4601 ⟨⟨"", "", 0, exCfg⟩, FileState.record ⟨some "tok", none, some 1000⟩⟩).2 =
      Except.error KError.tokenExpired := by
  exact (spec_C2 ⟨"", "", 0, exCfg⟩ ⟨some "tok", none, some 1000⟩ 4601 (by decide)).2.1 (by decide)

/-- C3: `SaveToken ""` returns the empty-token error and leaves the whole
world (in-memory record and file) unchanged, and `SaveToken` returns the
empty-token error exactly when the input token is empty. -/
theorem spec_C3 (w : World) (t : String) (now : Int) (writeFails : Bool) :
    SaveToken "" now writeFails w = (w, some KError.emptyToken) ∧
    ((SaveToken t now writeFails w).2 = some KError.emptyToken ↔ t = "") := by
  constructor
  · simp [SaveToken]
  · by_cases h : t = ""
    · simp [SaveToken, h]
    · cases writeFails <;> simp [SaveToken, save, h]

/-- C5: when the collaborator rejects the key string, `SavePrivateKey`
returns the invalid-key-format error and the world is fully unchanged:
the file is not written and the in-memory key material is untouched. -/
theorem spec_C5 (w : World) (K : String) (writeFails : Bool)
    (h : hexToECDSA K = none) :
    SavePrivateKey K writeFails w = (w, some KError.invalidKeyFormat) := by
  simp [SavePrivateKey, h]

/-- World for the C5 witness: a previously saved key is in memory and on
disk. -/
def c5World : World :=
  ⟨⟨"tok", "deadbeef", 3, exCfg⟩, FileState.record ⟨some "tok", some "deadbeef", some 3⟩⟩

/-- C5 witness: `SavePrivateKey "not-a-valid-hex-key"` fails with the
invalid-key-format error and leaves the previously saved key untouched. -/
theorem spec_C5_witness :
    SavePrivateKey "not-a-valid-hex-key" false c5World =
      (c5World, some KError.invalidKeyFormat) := by
  exact spec_C5 c5World "not-a-valid-hex-key" false (by decide)

/-- C4: a missing file makes `LoadToken` fail with `ErrNoKeystore`
carrying the attempted path (`<dirPath>/<fileName>`); a file that loads
successfully but yields an empty token makes it fail with
`ErrInvalidToken`; and the two errors arise from disjoint file states
(the former only when the file is missing, the latter only when a
well-formed record was read). -/
theorem spec_C4 (s : Store) (now : Int) :
    ((LoadToken now ⟨s, FileState.missing⟩).2 =
        Except.error (KError.noKeystore s.path) ∧
      s.path = s.config.dirPath ++ "/" ++ s.config.fileName) ∧
    (∀ fr : FileRecord, (unmarshalInto s fr).authToken = "" →
      (LoadToken now ⟨s, FileState.record fr⟩).2 = Except.error KError.invalidToken) ∧
    (∀ w : World, ∀ p : String,
      (LoadToken now w).2 = Except.error (KError.noKeystore p) →
        w.fs = FileState.missing) ∧
    (∀ w : World,
      (LoadToken now w).2 = Except.error KError.invalidToken →
        ∃ fr : FileRecord, w.fs = FileState.record fr) := by
  refine ⟨⟨rfl, rfl⟩, ?_, ?_, ?_⟩
  · intro fr hfr
    simp only [LoadToken, load]
    rw [if_pos hfr]
  · intro w p h
    obtain ⟨st, fs⟩ := w
    cases fs with
    | missing => rfl
    | unreadable => simp [LoadToken, load] at h
    | corrupt => simp [LoadToken, load] at h
    | record fr =>
      simp only [LoadToken, load] at h
      split_ifs at h <;> simp at h
  · intro w h
    obtain ⟨st, fs⟩ := w
    cases fs with
    | missing => simp [LoadToken, load] at h
    | unreadable => simp [LoadToken, load] at h
    | corrupt => simp [LoadToken, load] at h
    | record fr => exact ⟨fr, rfl⟩

/-- C4 witness: concrete missing-file and empty-token-record cases. -/
theorem spec_C4_witness :
    (LoadToken 0 ⟨⟨"", "", 0, exCfg⟩, FileState.missing⟩).2 =
      Except.error (KError.noKeystore "/home/user/.parity/keystore.json") ∧
    (LoadToken 0 ⟨⟨"", "", 0, exCfg⟩, FileState.record ⟨none, none, some 5⟩⟩).2 =
      Except.error KError.invalidToken := by
  exact ⟨(spec_C4 ⟨"", "", 0, exCfg⟩ 0).1.1,
    (spec_C4 ⟨"", "", 0, exCfg⟩ 0).2.1 ⟨none, none, some 5⟩ (by decide)⟩

/-- C9: a future-dated (or current-instant) `createdAt` never trips the
expiry check: with a non-empty token and `createdAt ≥ now`, `LoadToken`
succeeds and returns the token. -/
theorem spec_C9 (s : Store) (fr : FileRecord) (now : Int)
    (ht : (unmarshalInto s fr).authToken ≠ "")
    (hfuture : now ≤ (unmarshalInto s fr).createdAt) :
    (LoadToken now ⟨s, FileState.record fr⟩).2 =
      Except.ok (unmarshalInto s fr).authToken := by
  simp only [LoadToken, load, tokenExpirySeconds]
  rw [if_neg ht, if_neg (by omega)]

/-- C9 witness: token created 100 seconds in the future of `now = 50` is
returned as valid. -/
theorem spec_C9_witness :
    (LoadToken 50 ⟨⟨"", "", 0, exCfg⟩, FileState.record ⟨some "tok", none, some 150⟩⟩).2 =
      Except.ok "tok" := by
  exact spec_C9 ⟨"", "", 0, exCfg⟩ ⟨some "tok", none, some 150⟩ 50 (by decide) (by decide)

/-- C6: saving a non-empty token and then loading it back (at any time at
most 3600 seconds later, with no external file change) succeeds and
returns exactly the saved token. -/
theorem spec_C6 (w : World) (t : String) (now now2 : Int)
    (ht : t ≠ "") (hnow : now2 - now ≤ 3600) :
    (SaveToken t now false w).2 = none ∧
    (LoadToken now2 (SaveToken t now false w).1).2 = Except.ok t := by
  by_cases h0 : now = 0
  · subst h0
    have hexp : ¬ (tokenExpirySeconds < now2) := by
      simp only [tokenExpirySeconds]; omega
    simp [SaveToken, save, LoadToken, load, marshal, unmarshalInto, ht, hexp]
  · have hexp : ¬ (tokenExpirySeconds < now2 - now) := by
      simp only [tokenExpirySeconds]; omega
    simp [SaveToken, save, LoadToken, load, marshal, unmarshalInto, ht, h0, hexp]

/-- C6 witness: `SaveToken "abc123"` at time 5 then `LoadToken` at time 5
returns `"abc123"`. -/
theorem spec_C6_witness :
    (SaveToken "abc123" 5 false ⟨⟨"", "", 0, exCfg⟩, FileState.missing⟩).2 = none ∧
    (LoadToken 5 (SaveToken "abc123" 5 false
        ⟨⟨"", "", 0, exCfg⟩, FileState.missing⟩).1).2 = Except.ok "abc123" := by
  exact spec_C6 ⟨⟨"", "", 0, exCfg⟩, FileState.missing⟩ "abc123" 5 5
    (by decide) (by decide)

/-- A valid key string is non-empty (it has 64 hex digits). -/
theorem hexToECDSA_ne_empty (K : String) (d : Nat) (hK : hexToECDSA K = some d) :
    K ≠ "" := by
  intro hKe
  subst hKe
  simp [hexToECDSA] at hK

/-- C8: on one store instance, saving a non-empty token and then a valid
key (or in the reverse order) keeps both fields: the resulting record
holds the token, the key, and the token's timestamp, and both `LoadToken`
and `LoadPrivateKey` succeed afterwards, returning the saved values. -/
theorem spec_C8 (w : World) (t K : String) (d : Nat) (now : Int)
    (ht : t ≠ "") (hK : hexToECDSA K = some d) :
    ((SaveToken t now false w).2 = none ∧
      (SavePrivateKey K false (SaveToken t now false w).1).2 = none ∧
      (SavePrivateKey K false (SaveToken t now false w).1).1.store.authToken = t ∧
      (SavePrivateKey K false (SaveToken t now false w).1).1.store.privateKey = K ∧
      (SavePrivateKey K false (SaveToken t now false w).1).1.store.createdAt = now ∧
      (LoadToken now (SavePrivateKey K false (SaveToken t now false w).1).1).2 =
        Except.ok t ∧
      (LoadPrivateKey (SavePrivateKey K false (SaveToken t now false w).1).1).2 =
        Except.ok d) ∧
    ((SavePrivateKey K false w).2 = none ∧
      (SaveToken t now false (SavePrivateKey K false w).1).2 = none ∧
      (SaveToken t now false (SavePrivateKey K false w).1).1.store.authToken = t ∧
      (SaveToken t now false (SavePrivateKey K false w).1).1.store.privateKey = K ∧
      (SaveToken t now false (SavePrivateKey K false w).1).1.store.createdAt = now ∧
      (LoadToken now (SaveToken t now false (SavePrivateKey K false w).1).1).2 =
        Except.ok t ∧
      (LoadPrivateKey (SaveToken t now false (SavePrivateKey K false w).1).1).2 =
        Except.ok d) := by
  have hKne : K ≠ "" := hexToECDSA_ne_empty K d hK
  have hexp : ¬ (tokenExpirySeconds < now - now) := by
    simp only [tokenExpirySeconds]; omega
  by_cases h0 : now = 0
  · subst h0
    simp [SaveToken, SavePrivateKey, save, LoadToken, LoadPrivateKey, load,
      marshal, unmarshalInto, ht, hKne, hK, tokenExpirySeconds]
  · have hexp0 : ¬ (tokenExpirySeconds < (0 : Int)) := by
      simp only [tokenExpirySeconds]; omega
    simp [SaveToken, SavePrivateKey, save, LoadToken, LoadPrivateKey, load,
      marshal, unmarshalInto, ht, hKne, hK, h0, hexp, hexp0]

/-- Key scalar 1, written as 64 lowercase hex digits. -/
def c8Key : String := "0000000000000000000000000000000000000000000000000000000000000001"

/-- C8 witness: token `"abc123"` then key `c8Key` on a fresh store; both
reads succeed. -/
theorem spec_C8_witness :
    (LoadToken 5 (SavePrivateKey c8Key false
        (SaveToken "abc123" 5 false ⟨⟨"", "", 0, exCfg⟩, FileState.missing⟩).1).1).2 =
      Except.ok "abc123" ∧
    (LoadPrivateKey (SavePrivateKey c8Key false
        (SaveToken "abc123" 5 false ⟨⟨"", "", 0, exCfg⟩, FileState.missing⟩).1).1).2 =
      Except.ok 1 := by
  have h := spec_C8 ⟨⟨"", "", 0, exCfg⟩, FileState.missing⟩ "abc123" c8Key 1 5
    (by decide) (by decide)
  exact ⟨h.1.2.2.2.2.2.1, h.1.2.2.2.2.2.2⟩

/-- C10: `GetPrivateKeyHex` and `LoadPrivateKey` follow the identical
load-and-validation path: they leave the store in the same state, they
fail with `ErrNoKeystore`, a read error, a parse error, or
`ErrNoPrivateKey` in exactly the same cases, and whenever
`GetPrivateKeyHex` succeeds with hex `H`, `LoadPrivateKey` returns
exactly the collaborator's decoding of `H` (the decoded key, or the
decode error when `H` no longer decodes). -/
theorem spec_C10 (w : World) :
    (GetPrivateKeyHex w).1 = (LoadPrivateKey w).1 ∧
    (∀ p : String,
      (GetPrivateKeyHex w).2 = Except.error (KError.noKeystore p) ↔
        (LoadPrivateKey w).2 = Except.error (KError.noKeystore p)) ∧
    ((GetPrivateKeyHex w).2 = Except.error KError.readError ↔
      (LoadPrivateKey w).2 = Except.error KError.readError) ∧
    ((GetPrivateKeyHex w).2 = Except.error KError.parseError ↔
      (LoadPrivateKey w).2 = Except.error KError.parseError) ∧
    ((GetPrivateKeyHex w).2 = Except.error KError.noPrivateKey ↔
      (LoadPrivateKey w).2 = Except.error KError.noPrivateKey) ∧
    (∀ H : String, (GetPrivateKeyHex w).2 = Except.ok H →
      (LoadPrivateKey w).2 =
        (hexToECDSA H).elim (Except.error KError.invalidKeyFormat) Except.ok) := by
  obtain ⟨s, fs⟩ := w
  cases fs with
  | missing => simp [GetPrivateKeyHex, LoadPrivateKey, load]
  | unreadable => simp [GetPrivateKeyHex, LoadPrivateKey, load]
  | corrupt => simp [GetPrivateKeyHex, LoadPrivateKey, load]
  | record fr =>
    by_cases hp : (unmarshalInto s fr).privateKey = ""
    · simp [GetPrivateKeyHex, LoadPrivateKey, load, hp]
    · cases hE : hexToECDSA (unmarshalInto s fr).privateKey with
      | none => simp [GetPrivateKeyHex, LoadPrivateKey, load, hp, hE]
      | some d =>
        simp [GetPrivateKeyHex, LoadPrivateKey, load, hp, hE]

/-- C10 witness: on a record holding key scalar 1, `GetPrivateKeyHex`
returns the hex and `LoadPrivateKey` returns its decoding. -/
theorem spec_C10_witness :
    (LoadPrivateKey ⟨⟨"", "", 0, exCfg⟩,
        FileState.record ⟨none,
          some "0000000000000000000000000000000000000000000000000000000000000001",
          none⟩⟩).2 = Except.ok 1 := by
  have h := (spec_C10 ⟨⟨"", "", 0, exCfg⟩,
    FileState.record ⟨none,
      some "0000000000000000000000000000000000000000000000000000000000000001",
      none⟩⟩).2.2.2.2.2
    "0000000000000000000000000000000000000000000000000000000000000001"
    (by rfl)
  simpa using h

/-- The sixteen lowercase hex digits — the alphabet produced by
`hex.EncodeToString`, i.e. the image of `hexChar` on values below 16. -/
def lowerHexChars : List Char :=
  (List.range 16).map hexChar

/-- Each lowercase hex digit decodes to a value below 16 and re-encodes to
itself. -/
theorem hexCharRound (c : Char) (hc : c ∈ lowerHexChars) :
    (hexDigitVal c).isSome = true ∧ (hexDigitVal c).getD 0 < 16 ∧
      hexChar ((hexDigitVal c).getD 0) = c := by
  fin_cases hc <;> decide

/-- Appending a digit multiplies the accumulated value by 16 and adds the
digit. -/
theorem decodeNat_append (cs : List Char) (c : Char) :
    decodeNat (cs ++ [c]) = 16 * decodeNat cs + (hexDigitVal c).getD 0 := by
  simp [decodeNat, List.foldl_append, decodeStep]

/-- Re-encoding the value of a string of lowercase hex digits, with as many
output digits as the input had, recovers the input (little-endian, hence
reversed). -/
theorem toHexRevAux_decodeNat (cs : List Char)
    (hc : ∀ c ∈ cs, c ∈ lowerHexChars) :
    toHexRevAux cs.length (decodeNat cs) = cs.reverse := by
  induction cs using List.reverseRecOn with
  | nil => rfl
  | append_singleton cs c ih =>
    obtain ⟨hs, hv, hcc⟩ := hexCharRound c (hc c (by simp))
    have hlen : (cs ++ [c]).length = cs.length + 1 := by simp
    rw [hlen, decodeNat_append]
    show hexChar ((16 * decodeNat cs + (hexDigitVal c).getD 0) % 16) ::
        toHexRevAux cs.length ((16 * decodeNat cs + (hexDigitVal c).getD 0) / 16) =
        (cs ++ [c]).reverse
    have hmod : (16 * decodeNat cs + (hexDigitVal c).getD 0) % 16 =
        (hexDigitVal c).getD 0 := by omega
    have hdiv : (16 * decodeNat cs + (hexDigitVal c).getD 0) / 16 =
        decodeNat cs := by omega
    rw [hmod, hdiv, hcc, ih (fun x hx => hc x (by simp [hx]))]
    simp

/-- What a successful `hexToECDSA` tells us about the input. -/
theorem hexToECDSA_inv (K : String) (d : Nat) (hK : hexToECDSA K = some d) :
    K.data.length = 64 ∧ decodeNat K.data = d := by
  simp only [hexToECDSA] at hK
  split_ifs at hK with h1 h2
  exact ⟨h1.2, Option.some.inj hK⟩

/-- Re-encoding the key decoded from a 64-digit lowercase hex string
recovers the string. -/
theorem fromECDSAHex_decode (K : String) (d : Nat) (hK : hexToECDSA K = some d)
    (hlow : ∀ c ∈ K.data, c ∈ lowerHexChars) :
    fromECDSAHex d = K := by
  obtain ⟨hlen, hd⟩ := hexToECDSA_inv K d hK
  rw [fromECDSAHex, ← hd, ← hlen, toHexRevAux_decodeNat K.data hlow,
    List.reverse_reverse]

/-- C7 (amended): for a syntactically valid key hex `K` written with
lowercase hex digits, `SavePrivateKey K` succeeds, `GetPrivateKeyHex`
then returns `K` unchanged, `LoadPrivateKey` returns the decoded key, and
that key's re-encoded hex equals `K`.  (For a valid `K` containing
uppercase digits the save and `GetPrivateKeyHex` round-trip still hold,
but the re-encoding is the lowercase form of `K`, not `K` itself.) -/
theorem spec_C7 (w : World) (K : String) (d : Nat)
    (hK : hexToECDSA K = some d) (hlow : ∀ c ∈ K.data, c ∈ lowerHexChars) :
    (SavePrivateKey K false w).2 = none ∧
    (GetPrivateKeyHex (SavePrivateKey K false w).1).2 = Except.ok K ∧
    (LoadPrivateKey (SavePrivateKey K false w).1).2 = Except.ok d ∧
    fromECDSAHex d = K := by
  have hKne : K ≠ "" := hexToECDSA_ne_empty K d hK
  refine ⟨?_, ?_, ?_, fromECDSAHex_decode K d hK hlow⟩
  · simp [SavePrivateKey, hK, save]
  · simp [SavePrivateKey, hK, save, GetPrivateKeyHex, load, unmarshalInto,
      marshal, hKne]
  · simp [SavePrivateKey, hK, save, LoadPrivateKey, load, unmarshalInto,
      marshal, hKne]

/-- Key scalar 1 as lowercase hex, for the C7 witness. -/
def c7LowKey : String :=
  "0000000000000000000000000000000000000000000000000000000000000001"

/-- C7 witness: the lowercase key hex for scalar 1 round-trips through
save, `GetPrivateKeyHex`, `LoadPrivateKey`, and re-encoding. -/
theorem spec_C7_witness :
    (GetPrivateKeyHex (SavePrivateKey c7LowKey false
        ⟨⟨"", "", 0, exCfg⟩, FileState.missing⟩).1).2 = Except.ok c7LowKey ∧
    fromECDSAHex 1 = c7LowKey := by
  have h := spec_C7 ⟨⟨"", "", 0, exCfg⟩, FileState.missing⟩ c7LowKey 1
    (by decide) (by decide)
  exact ⟨h.2.1, h.2.2.2⟩

/-- Key scalar 10, written with an uppercase final digit — accepted by the
hex decoder. -/
def c7UpKey : String :=
  "000000000000000000000000000000000000000000000000000000000000000A"

/-- C7 counterexample: `c7UpKey` is syntactically valid (the save succeeds
and `GetPrivateKeyHex` returns it unchanged), `LoadPrivateKey` returns key
scalar 10, but the re-encoded hex of that key is the lowercase string,
which differs from `c7UpKey` — so the claim's re-encoding clause fails for
this valid key hex. -/
theorem spec_C7_counterexample :
    (SavePrivateKey c7UpKey false
        ⟨⟨"", "", 0, exCfg⟩, FileState.missing⟩).2 = none ∧
    (GetPrivateKeyHex (SavePrivateKey c7UpKey false
        ⟨⟨"", "", 0, exCfg⟩, FileState.missing⟩).1).2 = Except.ok c7UpKey ∧
    (LoadPrivateKey (SavePrivateKey c7UpKey false
        ⟨⟨"", "", 0, exCfg⟩, FileState.missing⟩).1).2 = Except.ok 10 ∧
    fromECDSAHex 10 ≠ c7UpKey := by
  exact ⟨rfl, rfl, rfl, by decide⟩

end Keystore
